import Mathlib

/-!
Shallow embedding of `src/setup-hooks.py`, the CLI that installs and removes
Datadog service-hook subscriptions on an Azure DevOps organization.

Pure data (projects, subscription records, static tables) is translated to
Lean structures and lists.  Each HTTP interaction is abstracted by its
observable outcome: either `urlopen` returned a response with a status, or it
raised an `HTTPError` with a code.  The install/uninstall workflows become
functions from their inputs (CLI arguments, environment variables, remote
state, the prompt answer, and the outcome of each remote write) to an outcome
record carrying whether the confirmation prompt was shown, the list of remote
write calls issued, and the final result.  Printing and the progress bar are
pure I/O and are not modelled.
-/

namespace SetupHooks

/-- Model of Python `str.startswith`: the second string is a prefix of the
first, compared character by character. -/
def strStartsWith (s p : String) : Bool :=
  p.data.isPrefixOf s.data

/-- ASCII lowering of one character, as Python `str.lower` acts on the ASCII
range used by the prompt answers `yes`/`y`. -/
def charLower (c : Char) : Char :=
  if 65 ≤ c.toNat ∧ c.toNat ≤ 90 then Char.ofNat (c.toNat + 32) else c

/-- Model of Python `str.lower` (ASCII range). -/
def strLower (s : String) : String :=
  ⟨s.data.map charLower⟩

/-- The event types that Datadog's Source Code Integration requires
(`EVENT_TYPES` in the source, in declared order). -/
def EVENT_TYPES : List String :=
  [ "git.pullrequest.created",
    "git.pullrequest.updated",
    "git.push",
    "ms.vss-pipelines.run-state-changed-event",
    "ms.vss-pipelines.stage-state-changed-event",
    "ms.vss-pipelines.job-state-changed-event",
    "ms.vss-pipelinechecks-events.approval-pending",
    "ms.vss-pipelinechecks-events.approval-completed",
    "build.complete" ]

/-- `VERSION_1_0` in the source. -/
def VERSION_1_0 : String := "1.0"

/-- `DEFAULT_RESOURCE_VERSION` in the source. -/
def DEFAULT_RESOURCE_VERSION : String := "latest"

/-- `EVENT_TYPE_VERSIONS` in the source: the static mapping from event type
to resource version, as an association list in declared order. -/
def EVENT_TYPE_VERSIONS : List (String × String) :=
  [ ("git.pullrequest.created", VERSION_1_0),
    ("git.pullrequest.updated", VERSION_1_0),
    ("git.push", VERSION_1_0) ]

/-- `VALID_DD_SITES` in the source. -/
def VALID_DD_SITES : List String :=
  [ "datadoghq.com",
    "datadoghq.eu",
    "ap1.datadoghq.com",
    "us3.datadoghq.com",
    "us5.datadoghq.com",
    "datad0g.com" ]

/-- An Azure DevOps project record, with the two fields the tool reads
(`p["id"]` and `p["name"]`). -/
structure Project where
  id : String
  name : String
deriving DecidableEq, Repr

/-- An existing service-hook subscription record, with the fields the tool
reads: `hook["publisherInputs"]["projectId"]`, `hook["eventType"]`, and
`hook["id"]`. -/
structure Hook where
  projectId : String
  eventType : String
  id : String
deriving DecidableEq, Repr

/-- The observable outcome of one `urllib.request.urlopen` call: either a
response object with a status, or a raised `urllib.error.HTTPError` with a
code. -/
inductive HttpOutcome where
  | response (status : Nat)
  | httpError (code : Nat)
deriving DecidableEq, Repr

/-- The HTTP status carried by an outcome, whichever form it took. -/
def HttpOutcome.statusCode : HttpOutcome → Nat
  | .response s => s
  | .httpError c => c

/-- `Client._get_publisher_id`: `pipelines` for the two pipeline-related
event-type namespaces, `tfs` for everything else. -/
def get_publisher_id (event_type : String) : String :=
  if strStartsWith event_type "ms.vss-pipelines." ||
      strStartsWith event_type "ms.vss-pipelinechecks-events." then
    "pipelines"
  else
    "tfs"

/-- The resource version chosen in `Client.configure_service_hook`:
`EVENT_TYPE_VERSIONS.get(event_type, DEFAULT_RESOURCE_VERSION)`. -/
def resource_version (event_type : String) : String :=
  (List.lookup event_type EVENT_TYPE_VERSIONS).getD DEFAULT_RESOURCE_VERSION

/-- `Client._webhook_url`. -/
def webhook_url (dd_site : String) : String :=
  "https://webhook-intake." ++ dd_site ++ "/api/v2/webhook"

/-- The JSON body that `Client.configure_service_hook` posts, field by
field. -/
structure HookPayload where
  publisherId : String
  eventType : String
  resourceVersion : String
  consumerId : String
  consumerActionId : String
  projectId : String
  url : String
  httpHeaders : String
deriving DecidableEq, Repr

/-- The payload built by `Client.configure_service_hook` for one project and
event type. -/
def hook_payload (dd_site dd_api_key : String) (project : Project)
    (event_type : String) : HookPayload :=
  { publisherId := get_publisher_id event_type
    eventType := event_type
    resourceVersion := resource_version event_type
    consumerId := "webHooks"
    consumerActionId := "httpRequest"
    projectId := project.id
    url := webhook_url dd_site
    httpHeaders := "dd-api-key: " ++ dd_api_key }

/-- Status handling of `Client.configure_service_hook`: a normal response
with status other than 200 raises `AzureDevOpsException`, and the
`HTTPError` branch always re-raises as `AzureDevOpsException`.  `Except.error`
carries the offending status. -/
def configure_service_hook : HttpOutcome → Except Nat Unit
  | .response s => if s ≠ 200 then .error s else .ok ()
  | .httpError c => .error c

/-- Status handling of `Client.delete_service_hook`: a normal response with
status other than 204 raises, and the `HTTPError` branch raises unless the
error code is 204. -/
def delete_service_hook : HttpOutcome → Except Nat Unit
  | .response s => if s ≠ 204 then .error s else .ok ()
  | .httpError c => if c ≠ 204 then .error c else .ok ()

/-- One page of the paginated project listing: the `value` array and the
`continuation_token` field that `Client.list_projects` inspects in the
response body (absent field modelled as `none`). -/
structure ProjectsPage where
  value : List Project
  continuationToken : Option String
deriving DecidableEq, Repr

/-- Python truthiness of `data.get("continuation_token")`: falsy when the
field is absent or the empty string. -/
def tokenPresent : Option String → Bool
  | none => false
  | some s => s ≠ ""

/-- `Client.list_projects`: consume the server's pages in order; after each
page whose body carries a truthy `continuation_token`, recurse and append the
next pages' projects. -/
def list_projects : List ProjectsPage → List Project
  | [] => []
  | page :: rest =>
    if tokenPresent page.continuationToken then
      page.value ++ list_projects rest
    else
      page.value

/-- A well-formed page sequence: every page except the last carries a truthy
continuation token, and the last page carries none. -/
def chainOk : List ProjectsPage → Bool
  | [] => false
  | [page] => !tokenPresent page.continuationToken
  | page :: page2 :: rest =>
    tokenPresent page.continuationToken && chainOk (page2 :: rest)

/-- Membership of the key `(projectId, eventType)` in the lookup
`existing_hooks_by_project_type` that `Client.install_hooks` builds from the
existing subscriptions. -/
def hookKeyPresent (hooks : List Hook) (projectId event_type : String) : Bool :=
  hooks.any fun h => h.projectId == projectId && h.eventType == event_type

/-- The `toProcess` list of `Client.install_hooks`: for every project in
listing order and every event type in declared order, keep the pair whose key
is absent from the existing-subscription lookup. -/
def toProcess (projects : List Project) (hooks : List Hook) :
    List (Project × String) :=
  projects.flatMap fun p =>
    (EVENT_TYPES.filter fun e => !hookKeyPresent hooks p.id e).map fun e => (p, e)

/-- The project-scope filter at the top of `Client.install_hooks`: with a
`--project` argument, keep exactly the projects whose display name equals
it. -/
def scopedProjects : Option String → List Project → List Project
  | none, projects => projects
  | some n, projects => projects.filter fun p => p.name == n

/-- The confirmation check `yesno.lower() in ["yes", "y"]`. -/
def answered_yes (answer : String) : Bool :=
  strLower answer == "yes" || strLower answer == "y"

/-- How `Client.install_hooks` ends for the process: the distinct observable
results of one run. -/
inductive InstallResult where
  | credentialError
  | noProjects
  | alreadyConfigured
  | declined
  | remoteError (status : Nat)
  | installed (count : Nat)
deriving DecidableEq, Repr

/-- Observable behaviour of one `Client.install_hooks` run: whether the
confirmation prompt was shown, the creation calls issued in order, and the
final result. -/
structure InstallOutcome where
  prompted : Bool
  creations : List (Project × String)
  result : InstallResult
deriving DecidableEq, Repr

/-- The sequential creation loop of `Client.install_hooks`: issue one
creation call per pair in order; the first failing call aborts the rest
(fail-fast).  Returns the calls issued and the first error status, if any. -/
def runCreations (co : Project × String → HttpOutcome) :
    List (Project × String) → List (Project × String) × Option Nat
  | [] => ([], none)
  | pe :: rest =>
    match configure_service_hook (co pe) with
    | .ok _ =>
      let r := runCreations co rest
      (pe :: r.1, r.2)
    | .error s => ([pe], some s)

/-- Wrap the creation loop's outcome into an `InstallOutcome`. -/
def finishCreations (prompted : Bool) (co : Project × String → HttpOutcome)
    (tp : List (Project × String)) : InstallOutcome :=
  match runCreations co tp with
  | (calls, none) => ⟨prompted, calls, .installed tp.length⟩
  | (calls, some s) => ⟨prompted, calls, .remoteError s⟩

/-- `Client.install_hooks`.  `credValid` is the outcome of
`validate_dd_api_key` (whose failure raises a plain `Exception`);
`allProjects` is what `list_projects` returned; `hooks` is what
`get_existing_hooks` returned; `answer` is the prompt input; `co` gives the
HTTP outcome of each creation request. -/
def install_hooks (credValid : Bool) (projectOpt : Option String)
    (allProjects : List Project) (hooks : List Hook) (answer : String)
    (co : Project × String → HttpOutcome) : InstallOutcome :=
  if !credValid then ⟨false, [], .credentialError⟩
  else if (scopedProjects projectOpt allProjects).length == 0 then
    ⟨false, [], .noProjects⟩
  else if (toProcess (scopedProjects projectOpt allProjects) hooks).length == 0 then
    ⟨false, [], .alreadyConfigured⟩
  else
    match projectOpt with
    | none =>
      if answered_yes answer then
        finishCreations true co (toProcess (scopedProjects projectOpt allProjects) hooks)
      else ⟨true, [], .declined⟩
    | some _ =>
      finishCreations false co (toProcess (scopedProjects projectOpt allProjects) hooks)

/-- How `Client.uninstall_hooks` ends for the process. -/
inductive UninstallResult where
  | rejectedSingleProject
  | noneFound
  | declined
  | remoteError (status : Nat)
  | uninstalled (count : Nat)
deriving DecidableEq, Repr

/-- Observable behaviour of one `Client.uninstall_hooks` run: whether the
existing subscriptions were listed (`get_existing_hooks` called), the
deletion calls issued in order, and the final result. -/
structure UninstallOutcome where
  listedHooks : Bool
  deletions : List Hook
  result : UninstallResult
deriving DecidableEq, Repr

/-- The sequential deletion loop of `Client.uninstall_hooks`, fail-fast like
the creation loop. -/
def runDeletions (dlo : Hook → HttpOutcome) :
    List Hook → List Hook × Option Nat
  | [] => ([], none)
  | h :: rest =>
    match delete_service_hook (dlo h) with
    | .ok _ =>
      let r := runDeletions dlo rest
      (h :: r.1, r.2)
    | .error s => ([h], some s)

/-- `Client.uninstall_hooks`: reject a single-project scope before any remote
call; otherwise list the existing hooks, stop when none, prompt, and delete
sequentially. -/
def uninstall_hooks (projectOpt : Option String) (hooks : List Hook)
    (answer : String) (dlo : Hook → HttpOutcome) : UninstallOutcome :=
  match projectOpt with
  | some _ => ⟨false, [], .rejectedSingleProject⟩
  | none =>
    if hooks.length == 0 then ⟨true, [], .noneFound⟩
    else if answered_yes answer then
      match runDeletions dlo hooks with
      | (calls, none) => ⟨true, calls, .uninstalled hooks.length⟩
      | (calls, some s) => ⟨true, calls, .remoteError s⟩
    else ⟨true, [], .declined⟩

/-- The `main` check `v is None or v == ""` on an environment variable. -/
def envStrMissing : Option String → Bool
  | none => true
  | some s => s == ""

/-- The hook record that the server stores for a successful creation call:
its key is the `(projectId, eventType)` pair of the request (the
server-assigned subscription id is irrelevant to reconciliation and
abstracted as `""`). -/
def mkHook (pe : Project × String) : Hook :=
  ⟨pe.1.id, pe.2, ""⟩

/-- `main`: the process exit code.  Missing `AZURE_DEVOPS_TOKEN` exits 1;
missing `DD_API_KEY` exits 1 unless uninstalling; a flow that calls
`exit(1)` (declined prompt) or raises (an `AzureDevOpsException` caught in
`main`, or the plain `Exception` of `validate_dd_api_key` left uncaught)
makes the process exit 1; every flow that returns normally lets `main`
finish, exiting 0. -/
def main_exit (token dd_api_key : Option String) (uninstall : Bool)
    (projectOpt : Option String) (credValid : Bool)
    (allProjects : List Project) (hooks : List Hook) (answer : String)
    (co : Project × String → HttpOutcome) (dlo : Hook → HttpOutcome) : Nat :=
  if envStrMissing token then 1
  else if !uninstall && envStrMissing dd_api_key then 1
  else if uninstall then
    match (uninstall_hooks projectOpt hooks answer dlo).result with
    | .declined => 1
    | .remoteError _ => 1
    | _ => 0
  else
    match (install_hooks credValid projectOpt allProjects hooks answer co).result with
    | .credentialError => 1
    | .declined => 1
    | .remoteError _ => 1
    | _ => 0

theorem hookKeyPresent_false_iff (hooks : List Hook) (pid e : String) :
    hookKeyPresent hooks pid e = false ↔
      ¬ ∃ h ∈ hooks, h.projectId = pid ∧ h.eventType = e := by
  rw [← Bool.not_eq_true]
  simp [hookKeyPresent, List.any_eq_true]

theorem mem_toProcess (projects : List Project) (hooks : List Hook)
    (pr : Project) (e : String) :
    (pr, e) ∈ toProcess projects hooks ↔
      pr ∈ projects ∧ e ∈ EVENT_TYPES ∧ hookKeyPresent hooks pr.id e = false := by
  constructor
  · intro h
    simp only [toProcess, List.mem_flatMap, List.mem_map, List.mem_filter] at h
    obtain ⟨p, hp, e', ⟨he', hkey⟩, heq⟩ := h
    injection heq with h1 h2
    subst h1; subst h2
    exact ⟨hp, he', by simpa using hkey⟩
  · rintro ⟨hp, he, hkey⟩
    simp only [toProcess, List.mem_flatMap, List.mem_map, List.mem_filter]
    exact ⟨pr, hp, e, ⟨he, by simp [hkey]⟩, rfl⟩

theorem length_beq_zero_false {α : Type} {l : List α} (h : l ≠ []) :
    (l.length == 0) = false := by
  cases l with
  | nil => exact absurd rfl h
  | cons a t => rfl

theorem finishCreations_prompted (b : Bool) (co : Project × String → HttpOutcome)
    (tp : List (Project × String)) : (finishCreations b co tp).prompted = b := by
  rcases hr : runCreations co tp with ⟨calls, err⟩
  cases err <;> simp [finishCreations, hr]

theorem finishCreations_creations (b : Bool) (co : Project × String → HttpOutcome)
    (tp : List (Project × String)) :
    (finishCreations b co tp).creations = (runCreations co tp).1 := by
  rcases hr : runCreations co tp with ⟨calls, err⟩
  cases err <;> simp [finishCreations, hr]

theorem runCreations_all_ok (co : Project × String → HttpOutcome)
    (hco : ∀ pe, configure_service_hook (co pe) = Except.ok ()) :
    ∀ tp : List (Project × String), runCreations co tp = (tp, none)
  | [] => rfl
  | pe :: rest => by
    simp [runCreations, hco pe, runCreations_all_ok co hco rest]

/-- C1: for every list of in-scope projects and every list of existing
subscriptions, the `EVENT_TYPES` list has 9 elements, a pair `(p, e)` is
selected by the install reconciliation iff `p` is in scope, `e` is in the
event-type list, and no existing subscription carries the key
`(p.id, e)`; and the selected list is exactly the ordered cartesian product
(projects in listing order, event types in declared order) filtered to the
missing pairs. -/
theorem install_selects_missing_pairs (projects : List Project) (hooks : List Hook) :
    EVENT_TYPES.length = 9 ∧
    (∀ (pr : Project) (e : String),
      (pr, e) ∈ toProcess projects hooks ↔
        pr ∈ projects ∧ e ∈ EVENT_TYPES ∧
          ¬ ∃ h ∈ hooks, h.projectId = pr.id ∧ h.eventType = e) ∧
    toProcess projects hooks =
      ((projects.flatMap fun p => EVENT_TYPES.map fun e => (p, e)).filter
        fun pe => !hookKeyPresent hooks pe.1.id pe.2) := by
  refine ⟨rfl, ?_, ?_⟩
  · intro pr e
    rw [mem_toProcess, hookKeyPresent_false_iff]
  · simp [toProcess, List.filter_flatMap, List.filter_map, Function.comp_def]

/-- C1 witness: on one project and one existing subscription covering
`git.push`, the selected pairs are exactly the other 8 event types for that
project, and `(p, "git.push")` is excluded. -/
theorem install_selects_missing_pairs_witness :
    ¬ ((⟨"p1", "Alpha"⟩ : Project), "git.push") ∈
        toProcess [⟨"p1", "Alpha"⟩] [⟨"p1", "git.push", "s1"⟩] ∧
    ((⟨"p1", "Alpha"⟩ : Project), "build.complete") ∈
        toProcess [⟨"p1", "Alpha"⟩] [⟨"p1", "git.push", "s1"⟩] := by
  constructor
  · intro hmem
    have h := ((install_selects_missing_pairs [⟨"p1", "Alpha"⟩]
      [⟨"p1", "git.push", "s1"⟩]).2.1 ⟨"p1", "Alpha"⟩ "git.push").mp hmem
    exact h.2.2 ⟨⟨"p1", "git.push", "s1"⟩, by simp, rfl, rfl⟩
  · exact ((install_selects_missing_pairs [⟨"p1", "Alpha"⟩]
      [⟨"p1", "git.push", "s1"⟩]).2.1 ⟨"p1", "Alpha"⟩ "build.complete").mpr
      ⟨by simp, by decide, by decide⟩

/-- C2 counterexample: a normal response with status 201 Created makes
`configure_service_hook` raise `AzureDevOpsException` carrying status 201,
so the creation does not succeed on 201 as claimed. -/
theorem configure_hook_rejects_201 :
    configure_service_hook (HttpOutcome.response 201) = Except.error 201 := rfl

/-- C2 (amended): `configure_service_hook` succeeds iff the creation request
returns a normal response with status exactly 200; every other status —
including 201 — and every `HTTPError` raise `AzureDevOpsException`. -/
theorem configure_hook_success_iff (o : HttpOutcome) :
    configure_service_hook o = Except.ok () ↔ o = HttpOutcome.response 200 := by
  cases o with
  | response s =>
    by_cases h : s = 200 <;> simp [configure_service_hook, h]
  | httpError c => simp [configure_service_hook]

/-- C2 amended-theorem witness: a normal 200 response succeeds. -/
theorem configure_hook_success_iff_witness :
    configure_service_hook (HttpOutcome.response 200) = Except.ok () :=
  (configure_hook_success_iff (HttpOutcome.response 200)).mpr rfl

/-- C6: `delete_service_hook` succeeds iff the deletion request's status code
is 204, on both the normal-response path and the `HTTPError` path; every
other status raises `AzureDevOpsException`. -/
theorem delete_hook_success_iff (o : HttpOutcome) :
    delete_service_hook o = Except.ok () ↔ o.statusCode = 204 := by
  cases o with
  | response s =>
    by_cases h : s = 204 <;> simp [delete_service_hook, HttpOutcome.statusCode, h]
  | httpError c =>
    by_cases h : c = 204 <;> simp [delete_service_hook, HttpOutcome.statusCode, h]

/-- C6 witness: a 204 normal response succeeds, and so does the (defensive)
`HTTPError` branch with code 204. -/
theorem delete_hook_success_iff_witness :
    delete_service_hook (HttpOutcome.response 204) = Except.ok () ∧
    delete_service_hook (HttpOutcome.httpError 204) = Except.ok () :=
  ⟨(delete_hook_success_iff (HttpOutcome.response 204)).mpr rfl,
   (delete_hook_success_iff (HttpOutcome.httpError 204)).mpr rfl⟩

/-- C5: the creation request's publisher id is `pipelines` iff the event type
starts with one of the two pipeline namespaces and `tfs` otherwise; its
resource version is the static table's entry when present and `latest`
otherwise; the posted payload uses exactly these; and concretely the
pipelines run-state event maps to (`pipelines`, `latest`) while `git.push`
maps to (`tfs`, `1.0`). -/
theorem creation_request_publisher_version :
    (∀ e : String,
      (get_publisher_id e = "pipelines" ↔
        (strStartsWith e "ms.vss-pipelines." = true ∨
         strStartsWith e "ms.vss-pipelinechecks-events." = true)) ∧
      (get_publisher_id e = "pipelines" ∨ get_publisher_id e = "tfs") ∧
      (∀ v, List.lookup e EVENT_TYPE_VERSIONS = some v → resource_version e = v) ∧
      (List.lookup e EVENT_TYPE_VERSIONS = none →
        resource_version e = DEFAULT_RESOURCE_VERSION)) ∧
    (∀ (site key : String) (pr : Project) (e : String),
      (hook_payload site key pr e).publisherId = get_publisher_id e ∧
      (hook_payload site key pr e).resourceVersion = resource_version e) ∧
    get_publisher_id "ms.vss-pipelines.run-state-changed-event" = "pipelines" ∧
    resource_version "ms.vss-pipelines.run-state-changed-event" = "latest" ∧
    get_publisher_id "git.push" = "tfs" ∧
    resource_version "git.push" = "1.0" := by
  refine ⟨?_, fun site key pr e => ⟨rfl, rfl⟩, by decide, by decide, by decide, by decide⟩
  intro e
  refine ⟨?_, ?_, ?_, ?_⟩
  · by_cases hb : (strStartsWith e "ms.vss-pipelines." ||
        strStartsWith e "ms.vss-pipelinechecks-events.") = true
    · rw [get_publisher_id, if_pos hb]
      simp only [Bool.or_eq_true] at hb
      exact ⟨fun _ => hb, fun _ => rfl⟩
    · rw [get_publisher_id, if_neg hb]
      simp only [Bool.or_eq_true] at hb
      exact ⟨fun hcontra => absurd hcontra (by decide), fun hor => absurd hor hb⟩
  · by_cases hb : (strStartsWith e "ms.vss-pipelines." ||
        strStartsWith e "ms.vss-pipelinechecks-events.") = true
    · rw [get_publisher_id, if_pos hb]; exact Or.inl rfl
    · rw [get_publisher_id, if_neg hb]; exact Or.inr rfl
  · intro v hv
    rw [resource_version, hv]; rfl
  · intro hnone
    rw [resource_version, hnone]; rfl

/-- C5 witness: the static table holds `1.0` for `git.push`, and the theorem
then yields resource version `1.0` for it. -/
theorem creation_request_publisher_version_witness :
    List.lookup "git.push" EVENT_TYPE_VERSIONS = some "1.0" ∧
    resource_version "git.push" = "1.0" :=
  ⟨by decide,
   (creation_request_publisher_version.1 "git.push").2.2.1 "1.0" (by decide)⟩

theorem hookKeyPresent_append (h1 h2 : List Hook) (pid e : String) :
    hookKeyPresent (h1 ++ h2) pid e =
      (hookKeyPresent h1 pid e || hookKeyPresent h2 pid e) := by
  simp [hookKeyPresent, List.any_append]

theorem toProcess_after_create (projects : List Project) (hooks : List Hook) :
    toProcess projects (hooks ++ (toProcess projects hooks).map mkHook) = [] := by
  rw [toProcess, List.flatMap_eq_nil_iff]
  intro p hp
  rw [List.map_eq_nil_iff, List.filter_eq_nil_iff]
  intro e he
  suffices hpres :
      hookKeyPresent (hooks ++ (toProcess projects hooks).map mkHook) p.id e = true by
    simp [hpres]
  rw [hookKeyPresent_append]
  by_cases hk : hookKeyPresent hooks p.id e = true
  · simp [hk]
  · have hmem : (p, e) ∈ toProcess projects hooks :=
      (mem_toProcess projects hooks p e).mpr
        ⟨hp, he, by simpa using hk⟩
    have hmk : mkHook (p, e) ∈ (toProcess projects hooks).map mkHook :=
      List.mem_map_of_mem mkHook hmem
    have : hookKeyPresent ((toProcess projects hooks).map mkHook) p.id e = true := by
      rw [hookKeyPresent, List.any_eq_true]
      exact ⟨mkHook (p, e), hmk, by simp [mkHook]⟩
    simp [this]

/-- C3: install is idempotent — once the remote state gains exactly the hooks
for the pairs the first run computed as missing, the second run computes an
empty missing set and reports the already-configured outcome, showing no
prompt and issuing zero creation calls. -/
theorem install_idempotent (allProjects : List Project) (hooks : List Hook)
    (answer2 : String) (co2 : Project × String → HttpOutcome)
    (hne : allProjects ≠ []) :
    toProcess allProjects (hooks ++ (toProcess allProjects hooks).map mkHook) = [] ∧
    install_hooks true none allProjects
        (hooks ++ (toProcess allProjects hooks).map mkHook) answer2 co2 =
      ⟨false, [], InstallResult.alreadyConfigured⟩ := by
  refine ⟨toProcess_after_create allProjects hooks, ?_⟩
  have h0 : (allProjects.length == 0) = false := length_beq_zero_false hne
  simp [install_hooks, scopedProjects, h0, toProcess_after_create allProjects hooks]

/-- C3 witness: with one fresh project and no existing subscriptions, the
state after the first run leaves nothing missing and the second run reports
already-configured without creating anything. -/
theorem install_idempotent_witness :
    ([(⟨"p1", "Alpha"⟩ : Project)] ≠ []) ∧
    toProcess [⟨"p1", "Alpha"⟩]
        ([] ++ (toProcess [⟨"p1", "Alpha"⟩] []).map mkHook) = [] ∧
    install_hooks true none [⟨"p1", "Alpha"⟩]
        ([] ++ (toProcess [⟨"p1", "Alpha"⟩] []).map mkHook) "x"
        (fun _ => HttpOutcome.response 200) =
      ⟨false, [], InstallResult.alreadyConfigured⟩ :=
  ⟨by decide,
   install_idempotent [⟨"p1", "Alpha"⟩] [] "x"
     (fun _ => HttpOutcome.response 200) (by decide)⟩

theorem list_projects_eq_flatten :
    ∀ pages : List ProjectsPage, chainOk pages = true →
      list_projects pages = (pages.map fun pg => pg.value).flatten
  | [], h => by simp [chainOk] at h
  | [page], h => by
    simp only [chainOk, Bool.not_eq_true'] at h
    simp [list_projects, h]
  | page :: page2 :: rest, h => by
    simp only [chainOk, Bool.and_eq_true] at h
    show (if tokenPresent page.continuationToken = true then
        page.value ++ list_projects (page2 :: rest) else page.value) =
      (((page :: page2 :: rest).map fun pg => pg.value).flatten)
    rw [if_pos h.1, list_projects_eq_flatten (page2 :: rest) h.2]
    simp

/-- C4: for every page sequence in which each page except the last carries a
truthy continuation token (in the `continuation_token` body field the code
inspects) and the last carries none, `list_projects` returns exactly the
concatenation of the pages' project lists in page order; in particular it has
no duplicates whenever the concatenation has none, and omits nothing. -/
theorem list_projects_pagination (pages : List ProjectsPage)
    (h : chainOk pages = true) :
    list_projects pages = (pages.map fun pg => pg.value).flatten ∧
    (((pages.map fun pg => pg.value).flatten).Nodup → (list_projects pages).Nodup) := by
  have e := list_projects_eq_flatten pages h
  exact ⟨e, fun hnd => e ▸ hnd⟩

/-- C4 witness: two pages, the first with a token and the second without,
produce exactly the three projects in order. -/
theorem list_projects_pagination_witness :
    chainOk [⟨[⟨"1", "A"⟩], some "tok"⟩, ⟨[⟨"2", "B"⟩, ⟨"3", "C"⟩], none⟩] = true ∧
    list_projects [⟨[⟨"1", "A"⟩], some "tok"⟩, ⟨[⟨"2", "B"⟩, ⟨"3", "C"⟩], none⟩] =
      [⟨"1", "A"⟩, ⟨"2", "B"⟩, ⟨"3", "C"⟩] :=
  ⟨by decide,
   (list_projects_pagination
     [⟨[⟨"1", "A"⟩], some "tok"⟩, ⟨[⟨"2", "B"⟩, ⟨"3", "C"⟩], none⟩]
     (by decide)).1.trans (by decide)⟩

/-- C7: whenever uninstall is invoked with a single-project scope, it is
rejected before any remote call: the existing subscriptions are never listed,
no deletion call is issued, and the run ends in the rejected result (the
model's only remote calls for uninstall are the listing and the deletions). -/
theorem uninstall_single_project_rejected (n : String) (hooks : List Hook)
    (answer : String) (dlo : Hook → HttpOutcome) :
    uninstall_hooks (some n) hooks answer dlo =
      ⟨false, [], UninstallResult.rejectedSingleProject⟩ := rfl

/-- C8: during install with all-projects scope and a nonempty missing set,
the confirmation prompt is shown, a non-confirming answer issues zero
creation calls and ends declined, and a confirming answer proceeds with the
creation loop; with a single-project scope the prompt is skipped and the
creation loop runs directly. -/
theorem install_confirmation (allProjects : List Project) (hooks : List Hook)
    (answer : String) (co : Project × String → HttpOutcome) :
    (allProjects ≠ [] → toProcess allProjects hooks ≠ [] →
      (install_hooks true none allProjects hooks answer co).prompted = true ∧
      (answered_yes answer = false →
        (install_hooks true none allProjects hooks answer co).creations = [] ∧
        (install_hooks true none allProjects hooks answer co).result =
          InstallResult.declined) ∧
      (answered_yes answer = true →
        (install_hooks true none allProjects hooks answer co).creations =
          (runCreations co (toProcess allProjects hooks)).1)) ∧
    (∀ n : String,
      scopedProjects (some n) allProjects ≠ [] →
      toProcess (scopedProjects (some n) allProjects) hooks ≠ [] →
      (install_hooks true (some n) allProjects hooks answer co).prompted = false ∧
      (install_hooks true (some n) allProjects hooks answer co).creations =
        (runCreations co (toProcess (scopedProjects (some n) allProjects) hooks)).1) := by
  constructor
  · intro hne htp
    have h0 : (allProjects.length == 0) = false := length_beq_zero_false hne
    have h1 : ((toProcess allProjects hooks).length == 0) = false :=
      length_beq_zero_false htp
    refine ⟨?_, ?_, ?_⟩
    · by_cases hc : answered_yes answer <;>
        simp [install_hooks, scopedProjects, h0, h1, hc, finishCreations_prompted]
    · intro hc
      simp [install_hooks, scopedProjects, h0, h1, hc]
    · intro hc
      simp [install_hooks, scopedProjects, h0, h1, hc, finishCreations_creations]
  · intro n hne htp
    have h0 : ((scopedProjects (some n) allProjects).length == 0) = false :=
      length_beq_zero_false hne
    have h1 : ((toProcess (scopedProjects (some n) allProjects) hooks).length == 0) = false :=
      length_beq_zero_false htp
    constructor
    · simp [install_hooks, h0, h1, finishCreations_prompted]
    · simp [install_hooks, h0, h1, finishCreations_creations]

/-- C8 witness: one fresh project, all-projects scope, answer `no`: the
prompt is shown and no creation call is issued. -/
theorem install_confirmation_witness :
    (install_hooks true none [⟨"p1", "Alpha"⟩] [] "no"
        (fun _ => HttpOutcome.response 200)).prompted = true ∧
    (install_hooks true none [⟨"p1", "Alpha"⟩] [] "no"
        (fun _ => HttpOutcome.response 200)).creations = [] := by
  have h := (install_confirmation [⟨"p1", "Alpha"⟩] [] "no"
    (fun _ => HttpOutcome.response 200)).1 (by decide) (by decide)
  exact ⟨h.1, (h.2.1 (by decide)).1⟩

/-- C10: the single-project install filter retains every project whose
display name equals the `--project` argument (so several same-named projects
all stay in scope), the prompt is still skipped, and — when every creation
call succeeds — a hook is created for each retained project's missing event
types. -/
theorem install_filter_keeps_all_matching (n : String) (allProjects : List Project)
    (hooks : List Hook) (answer : String) (co : Project × String → HttpOutcome) :
    (∀ p : Project, p ∈ scopedProjects (some n) allProjects ↔
      p ∈ allProjects ∧ p.name = n) ∧
    (install_hooks true (some n) allProjects hooks answer co).prompted = false ∧
    (∀ p ∈ scopedProjects (some n) allProjects, ∀ e ∈ EVENT_TYPES,
      hookKeyPresent hooks p.id e = false →
      (∀ pe, configure_service_hook (co pe) = Except.ok ()) →
      (p, e) ∈ (install_hooks true (some n) allProjects hooks answer co).creations) := by
  refine ⟨?_, ?_, ?_⟩
  · intro p
    simp [scopedProjects, List.mem_filter]
  · by_cases h0 : ((scopedProjects (some n) allProjects).length == 0) = true
    · simp [install_hooks, h0]
    · by_cases h1 :
          ((toProcess (scopedProjects (some n) allProjects) hooks).length == 0) = true
      · simp [install_hooks, h0, h1]
      · simp [install_hooks, h0, h1, finishCreations_prompted]
  · intro p hp e he hk hco
    have hmem : (p, e) ∈ toProcess (scopedProjects (some n) allProjects) hooks :=
      (mem_toProcess (scopedProjects (some n) allProjects) hooks p e).mpr ⟨hp, he, hk⟩
    have hne : scopedProjects (some n) allProjects ≠ [] := by
      intro hnil; rw [hnil] at hp; simp at hp
    have htp : toProcess (scopedProjects (some n) allProjects) hooks ≠ [] := by
      intro hnil; rw [hnil] at hmem; simp at hmem
    have h0 := length_beq_zero_false hne
    have h1 := length_beq_zero_false htp
    have hcre : (install_hooks true (some n) allProjects hooks answer co).creations =
        (runCreations co (toProcess (scopedProjects (some n) allProjects) hooks)).1 := by
      simp [install_hooks, h0, h1, finishCreations_creations]
    rw [hcre, runCreations_all_ok co hco]
    exact hmem

/-- C10 witness: with two distinct projects both named `A`, scoping install to
`A` keeps both in scope and creates hooks for both of them, without a
prompt. -/
theorem install_filter_keeps_all_matching_witness :
    ((⟨"1", "A"⟩ : Project), "git.push") ∈
      (install_hooks true (some "A") [⟨"1", "A"⟩, ⟨"2", "A"⟩] [] "x"
        (fun _ => HttpOutcome.response 200)).creations ∧
    ((⟨"2", "A"⟩ : Project), "git.push") ∈
      (install_hooks true (some "A") [⟨"1", "A"⟩, ⟨"2", "A"⟩] [] "x"
        (fun _ => HttpOutcome.response 200)).creations ∧
    (install_hooks true (some "A") [⟨"1", "A"⟩, ⟨"2", "A"⟩] [] "x"
        (fun _ => HttpOutcome.response 200)).prompted = false := by
  have h := install_filter_keeps_all_matching "A" [⟨"1", "A"⟩, ⟨"2", "A"⟩] [] "x"
    (fun _ => HttpOutcome.response 200)
  exact ⟨h.2.2 ⟨"1", "A"⟩ (by decide) "git.push" (by decide) (by decide) (fun _ => rfl),
         h.2.2 ⟨"2", "A"⟩ (by decide) "git.push" (by decide) (by decide) (fun _ => rfl),
         h.2.1⟩

/-- C9: the process exit code is always 0 or 1; it is 1 exactly when the
organization token is missing, the vendor API key is missing while
installing, a confirmation prompt is declined, a remote error occurs during
install or uninstall, or the credential is invalid; and concretely the
single-project uninstall rejection, the empty uninstall set, and the
project-not-found install all exit 0. -/
theorem exit_code_one_iff (token dd_api_key : Option String) (uninstall : Bool)
    (projectOpt : Option String) (credValid : Bool) (allProjects : List Project)
    (hooks : List Hook) (answer : String) (co : Project × String → HttpOutcome)
    (dlo : Hook → HttpOutcome) :
    (main_exit token dd_api_key uninstall projectOpt credValid allProjects hooks answer co dlo = 0 ∨
     main_exit token dd_api_key uninstall projectOpt credValid allProjects hooks answer co dlo = 1) ∧
    (main_exit token dd_api_key uninstall projectOpt credValid allProjects hooks answer co dlo = 1 ↔
      (envStrMissing token = true ∨
       (uninstall = false ∧ envStrMissing dd_api_key = true) ∨
       (envStrMissing token = false ∧ uninstall = true ∧
         ((uninstall_hooks projectOpt hooks answer dlo).result = UninstallResult.declined ∨
          ∃ s, (uninstall_hooks projectOpt hooks answer dlo).result =
            UninstallResult.remoteError s)) ∨
       (envStrMissing token = false ∧ envStrMissing dd_api_key = false ∧ uninstall = false ∧
         ((install_hooks credValid projectOpt allProjects hooks answer co).result =
            InstallResult.credentialError ∨
          (install_hooks credValid projectOpt allProjects hooks answer co).result =
            InstallResult.declined ∨
          ∃ s, (install_hooks credValid projectOpt allProjects hooks answer co).result =
            InstallResult.remoteError s)))) ∧
    (∀ n, envStrMissing token = false → uninstall = true → projectOpt = some n →
      main_exit token dd_api_key uninstall projectOpt credValid allProjects hooks answer co dlo = 0) ∧
    (envStrMissing token = false → uninstall = true → hooks = [] →
      main_exit token dd_api_key uninstall projectOpt credValid allProjects hooks answer co dlo = 0) ∧
    (envStrMissing token = false → envStrMissing dd_api_key = false → uninstall = false →
      (install_hooks credValid projectOpt allProjects hooks answer co).result =
        InstallResult.noProjects →
      main_exit token dd_api_key uninstall projectOpt credValid allProjects hooks answer co dlo = 0) := by
  cases htok : envStrMissing token with
  | true => simp [main_exit, htok]
  | false =>
    cases uninstall with
    | true =>
      cases projectOpt with
      | some n => simp [main_exit, htok, uninstall_hooks]
      | none =>
        cases hooks with
        | nil => simp [main_exit, htok, uninstall_hooks]
        | cons hk hks =>
          rcases hur : (uninstall_hooks none (hk :: hks) answer dlo).result with
            _ | _ | _ | s | c <;>
            simp [main_exit, htok, hur]
    | false =>
      cases hkey : envStrMissing dd_api_key with
      | true => simp [main_exit, htok, hkey]
      | false =>
        rcases hres :
            (install_hooks credValid projectOpt allProjects hooks answer co).result with
          _ | _ | _ | _ | s | c <;>
          simp [main_exit, htok, hkey, hres]

/-- C9 witness: env vars set, uninstall with a single-project scope exits 0
(the rejection is not an error exit). -/
theorem exit_code_one_iff_witness :
    envStrMissing (some "t") = false ∧
    main_exit (some "t") (some "k") true (some "P") true [] [] "no"
      (fun _ => HttpOutcome.response 200) (fun _ => HttpOutcome.response 204) = 0 :=
  ⟨by decide,
   (exit_code_one_iff (some "t") (some "k") true (some "P") true [] [] "no"
      (fun _ => HttpOutcome.response 200)
      (fun _ => HttpOutcome.response 204)).2.2.1 "P" (by decide) rfl rfl⟩

end SetupHooks
